import Mathlib

/- Verification of the cloud-batch driver scripts (scripts/cfa-cloudops/main.py and
   ixa-cfa-cloudops/main.py) and of the job-lifecycle orchestrator they rely on.
   The orchestrator itself lives in the external cloud-batch client library and is
   absent from the sources, so its operations are modelled from the specification;
   the call sequences of the two driver scripts are embedded from the sources. -/

namespace Cloudops

inductive TaskState
  | queued
  | running
  | succeeded
  | failed
  deriving DecidableEq

def isTerminal : TaskState → Bool
  | TaskState.succeeded => true
  | TaskState.failed => true
  | _ => false

inductive SizingPolicy
  | fixed (count : Int)
  | autoscale (lo hi : Nat)
  deriving DecidableEq

structure Pool where
  name : String
  mounts : List String
  imageRef : String
  sizing : SizingPolicy
  deriving DecidableEq

structure Job where
  name : String
  poolName : String
  deriving DecidableEq

structure Task where
  id : Nat
  jobName : String
  commandLine : String
  state : TaskState
  deriving DecidableEq

/- A log entry for each call actually issued to the remote compute system.
   Validation failures are rejected locally and issue no remote call. -/
inductive RemoteOp
  | rCreatePool (name : String)
  | rCreateJob (name : String)
  | rAddTask (jobName commandLine : String)
  | rDeleteJob (name : String)
  | rDeletePool (name : String)
  deriving DecidableEq

structure OrchState where
  pools : List Pool
  jobs : List Job
  tasks : List Task
  nextTaskId : Nat
  log : List RemoteOp
  deriving DecidableEq

/- The resource registries of an orchestrator state, without the remote-call log. -/
def resourcesOf (s : OrchState) : List Pool × List Job × List Task :=
  (s.pools, s.jobs, s.tasks)

inductive OrchError
  | ResourceConflict
  | PoolNotFound
  | JobNotFound
  | InvalidSizing
  | InvalidCommand
  | MonitorTimeout
  | RemoteUnavailable
  deriving DecidableEq

/-- Modelled from the spec: validity of a pool sizing policy.  The orchestrator
implementation is in the external cloud-batch library, missing from the sources.
Autoscale bounds must be monotonic and a fixed node count must be positive. -/
def validSizing : SizingPolicy → Bool
  | SizingPolicy.fixed c => decide (0 < c)
  | SizingPolicy.autoscale lo hi => decide (lo ≤ hi)

/-- Modelled from the spec: createPool fails with InvalidSizing if autoscale
bounds are non-monotonic or the fixed count is not positive, fails with
ResourceConflict if the name already exists and the conflict policy forbids
reuse, and otherwise registers the pool, issuing one remote call. -/
def createPool (name : String) (mounts : List String) (imageRef : String)
    (sizing : SizingPolicy) (allowReuse : Bool) (s : OrchState) :
    Except OrchError Pool × OrchState :=
  if validSizing sizing = false then (Except.error OrchError.InvalidSizing, s)
  else
    match s.pools.find? (fun p => p.name == name) with
    | some p =>
      if allowReuse then (Except.ok p, s)
      else (Except.error OrchError.ResourceConflict, s)
    | none =>
      let p : Pool := ⟨name, mounts, imageRef, sizing⟩
      (Except.ok p,
       { s with pools := p :: s.pools, log := s.log ++ [RemoteOp.rCreatePool name] })

/-- Modelled from the spec: createJob fails with PoolNotFound if the pool is
absent; if existOk and the job already exists it returns the existing job
instead of failing; otherwise it registers a new job, issuing one remote call. -/
def createJob (name : String) (poolName : String) (existOk : Bool) (s : OrchState) :
    Except OrchError Job × OrchState :=
  match s.pools.find? (fun p => p.name == poolName) with
  | none => (Except.error OrchError.PoolNotFound, s)
  | some _ =>
    match s.jobs.find? (fun j => j.name == name) with
    | some j =>
      if existOk then (Except.ok j, s)
      else (Except.error OrchError.ResourceConflict, s)
    | none =>
      let j : Job := ⟨name, poolName⟩
      (Except.ok j,
       { s with jobs := j :: s.jobs, log := s.log ++ [RemoteOp.rCreateJob name] })

/-- Modelled from the spec: addTask fails with InvalidCommand on an empty
command line before contacting the remote system, fails with JobNotFound if the
job is not registered, and otherwise appends a fresh queued task, issuing one
remote call. -/
def addTask (jobName : String) (commandLine : String) (s : OrchState) :
    Except OrchError Task × OrchState :=
  if commandLine = "" then (Except.error OrchError.InvalidCommand, s)
  else if (s.jobs.find? (fun j => j.name == jobName)).isNone then
    (Except.error OrchError.JobNotFound, s)
  else
    let t : Task := ⟨s.nextTaskId, jobName, commandLine, TaskState.queued⟩
    (Except.ok t,
     { s with tasks := s.tasks ++ [t], nextTaskId := s.nextTaskId + 1,
              log := s.log ++ [RemoteOp.rAddTask jobName commandLine] })

/-- Modelled from the spec: deleteJob is idempotent; deleting an absent job is a
no-op, not an error, the remote delete call swallowing the not-found condition. -/
def deleteJob (name : String) (s : OrchState) : Except OrchError Unit × OrchState :=
  (Except.ok (),
   { s with jobs := s.jobs.filter (fun j => !(j.name == name)),
            log := s.log ++ [RemoteOp.rDeleteJob name] })

/-- Modelled from the spec: deletePool is idempotent; deleting an absent pool is
a no-op, not an error, the remote delete call swallowing the not-found condition. -/
def deletePool (name : String) (s : OrchState) : Except OrchError Unit × OrchState :=
  (Except.ok (),
   { s with pools := s.pools.filter (fun p => !(p.name == name)),
            log := s.log ++ [RemoteOp.rDeletePool name] })

abbrev MonitorResult := List TaskState

def allTerminal (ts : List TaskState) : Bool := ts.all isTerminal

/-- Modelled from the spec: the polling loop of monitorJob.  The successive
status snapshots of the monitored tasks reported by the remote system are
abstracted as sched, with sched k the snapshot seen by the status check issued
at elapsed time k * pollInterval.  The loop returns the snapshot once all tasks
are terminal and raises MonitorTimeout once the elapsed time would reach or
exceed the timeout before that happens.  Recursion is fuelled; the top-level
entry supplies enough fuel whenever pollInterval is positive. -/
def monitorAux (sched : Nat → List TaskState) (pollInterval : Nat) (timeout : Nat) :
    Nat → Nat → Except OrchError MonitorResult
  | _, 0 => Except.error OrchError.MonitorTimeout
  | k, fuel + 1 =>
    if allTerminal (sched k) then Except.ok (sched k)
    else if timeout ≤ (k + 1) * pollInterval then Except.error OrchError.MonitorTimeout
    else monitorAux sched pollInterval timeout (k + 1) fuel

/-- Modelled from the spec: monitorJob blocks, issuing a status check every
pollInterval until all tasks are terminal or the timeout elapses, failing with
MonitorTimeout in the latter case. -/
def monitorJob (sched : Nat → List TaskState) (pollInterval : Nat) (timeout : Nat) :
    Except OrchError MonitorResult :=
  monitorAux sched pollInterval timeout 0 (timeout + 1)

/- Allowed lifecycle transitions of a single task, from the spec state machine. -/
inductive TaskStep : TaskState → TaskState → Prop
  | queued_running : TaskStep TaskState.queued TaskState.running
  | running_succeeded : TaskStep TaskState.running TaskState.succeeded
  | running_failed : TaskStep TaskState.running TaskState.failed

/- Embedding of the two driver scripts.  Each script is a straight-line
   sequence of CloudClient calls; the constants below are the module-level
   constants of scripts/cfa-cloudops/main.py. -/

def POOL_NAME : String := "ixa-pool1"

def JOB_NAME : String := "ixa-job1"

def DOCKER_IMAGE_NAME : String := "ixa-bench"

def REGISTRY_NAME : String := "cfaprdbatchcr"

inductive CloudCall
  | uploadFiles (files containerName localRootDir locationInBlob : String)
  | createPoolCall (poolName : String) (mounts : List String)
      (containerImageName vmSize : String) (maxAutoscaleNodes : Nat) (autoscale : Bool)
  | createJobCall (jobName poolName : String) (existOk : Bool)
  | addTaskCall (jobName commandLine : String)
  | monitorJobCall (jobName : String)
  | deleteJobCall (jobName : String)
  | deletePoolCall (poolName : String)
  | listBlobFiles (containerName : String)
  deriving DecidableEq

/- The sequence of CloudClient calls performed by main of
   scripts/cfa-cloudops/main.py, in program order. -/
def mainTrace : List CloudCall :=
  [CloudCall.uploadFiles "ixa_setup.sh" "input-test" "../" "ixa-bench",
   CloudCall.createPoolCall POOL_NAME ["input-test"] "rust:slim" "standard_d8s_v3" 1 false,
   CloudCall.createJobCall JOB_NAME POOL_NAME true,
   CloudCall.addTaskCall JOB_NAME "/input-test/ixa-bench/ixa_setup.sh",
   CloudCall.monitorJobCall JOB_NAME,
   CloudCall.deleteJobCall JOB_NAME,
   CloudCall.deletePoolCall POOL_NAME]

/- Sequential exception semantics of the script: fails i says whether the
   i-th call of the trace raises.  Call i is invoked exactly when every
   earlier call returned without raising; there is no handler in main, so a
   raise aborts the rest of the run. -/
def invoked (fails : Nat → Bool) (i : Nat) : Bool :=
  decide (i < mainTrace.length) && (List.range i).all (fun j => !fails j)

/- Call i completes (returns with remote acknowledgment) when it is invoked
   and does not itself raise. -/
def completes (fails : Nat → Bool) (i : Nat) : Bool :=
  invoked fails i && !fails i

/- The sequence of CloudClient calls performed by main of
   ixa-cfa-cloudops/main.py, in program order. -/
def ixaMainTrace : List CloudCall :=
  [CloudCall.listBlobFiles "input-test"]

/- Abstract state of the remote cloud system, for frame reasoning. -/
structure RemoteState where
  pools : List String
  jobs : List String
  tasks : List (String × String)
  blobs : List (String × String)
  deriving DecidableEq

/- Effect of each CloudClient call on the remote state: status queries and
   blob listings read only, every other call mutates. -/
def applyCall : CloudCall → RemoteState → RemoteState
  | CloudCall.uploadFiles f c _ loc, r => { r with blobs := (c, loc ++ "/" ++ f) :: r.blobs }
  | CloudCall.createPoolCall n _ _ _ _ _, r => { r with pools := n :: r.pools }
  | CloudCall.createJobCall n _ _, r => { r with jobs := n :: r.jobs }
  | CloudCall.addTaskCall j cmd, r => { r with tasks := (j, cmd) :: r.tasks }
  | CloudCall.monitorJobCall _, r => r
  | CloudCall.deleteJobCall n, r => { r with jobs := r.jobs.filter (fun m => !(m == n)) }
  | CloudCall.deletePoolCall n, r => { r with pools := r.pools.filter (fun m => !(m == n)) }
  | CloudCall.listBlobFiles _, r => r

def runRemote : List CloudCall → RemoteState → RemoteState
  | [], r => r
  | c :: cs, r => runRemote cs (applyCall c r)

def isMutating : CloudCall → Bool
  | CloudCall.monitorJobCall _ => false
  | CloudCall.listBlobFiles _ => false
  | _ => true

/- Concrete states used to exercise the theorems below. -/

def s0 : OrchState := { pools := [], jobs := [], tasks := [], nextTaskId := 0, log := [] }

def s1 : OrchState :=
  { pools := [⟨"ixa-pool1", ["input-test"], "rust:slim", SizingPolicy.fixed 1⟩],
    jobs := [⟨"ixa-job1", "ixa-pool1"⟩], tasks := [], nextTaskId := 0, log := [] }

/- Helper lemmas. -/

theorem filter_idem {α : Type} (p : α → Bool) (l : List α) :
    (l.filter p).filter p = l.filter p := by
  induction l with
  | nil => rfl
  | cons a l ih =>
    by_cases h : p a = true
    · simp [List.filter_cons, h, ih]
    · simp [List.filter_cons, h, ih]

theorem filter_of_find?_none {α : Type} (p : α → Bool) (l : List α)
    (h : l.find? p = none) : l.filter (fun a => !p a) = l := by
  rw [List.filter_eq_self]
  intro a ha
  have := List.find?_eq_none.mp h a ha
  simp_all

/-- C6: for every sizing policy whose autoscale bounds are non-monotonic or
whose fixed node count is not positive, createPool fails with InvalidSizing and
creates no pool, leaving the state untouched. -/
theorem createPool_invalidSizing (name : String) (mounts : List String)
    (imageRef : String) (sizing : SizingPolicy) (allowReuse : Bool) (s : OrchState)
    (h : (∃ lo hi, sizing = SizingPolicy.autoscale lo hi ∧ hi < lo) ∨
         (∃ c, sizing = SizingPolicy.fixed c ∧ c ≤ 0)) :
    createPool name mounts imageRef sizing allowReuse s =
      (Except.error OrchError.InvalidSizing, s) := by
  have hv : validSizing sizing = false := by
    rcases h with ⟨lo, hi, rfl, hlt⟩ | ⟨c, rfl, hle⟩
    · simp [validSizing]; omega
    · simp [validSizing]; omega
  simp [createPool, hv]

/-- Witness for createPool_invalidSizing at a concrete non-positive fixed count. -/
theorem createPool_invalidSizing_witness :
    ((∃ lo hi, SizingPolicy.fixed 0 = SizingPolicy.autoscale lo hi ∧ hi < lo) ∨
     (∃ c, SizingPolicy.fixed 0 = SizingPolicy.fixed c ∧ c ≤ 0)) ∧
    createPool "p" [] "img" (SizingPolicy.fixed 0) false s0 =
      (Except.error OrchError.InvalidSizing, s0) :=
  ⟨Or.inr ⟨0, rfl, by decide⟩,
   createPool_invalidSizing "p" [] "img" (SizingPolicy.fixed 0) false s0
     (Or.inr ⟨0, rfl, by decide⟩)⟩

/-- C5: for every pool name not currently registered (and well-formed sizing
requests), createPool succeeds, and a subsequent createPool with the same name
whose conflict policy forbids reuse fails with ResourceConflict, leaving the
state after the first call unchanged. -/
theorem createPool_fresh_then_conflict (name : String) (m1 m2 : List String)
    (i1 i2 : String) (z1 z2 : SizingPolicy) (r1 : Bool) (s : OrchState)
    (hfree : s.pools.find? (fun p => p.name == name) = none)
    (h1 : validSizing z1 = true) (h2 : validSizing z2 = true) :
    ∃ p s2, createPool name m1 i1 z1 r1 s = (Except.ok p, s2) ∧
      createPool name m2 i2 z2 false s2 =
        (Except.error OrchError.ResourceConflict, s2) := by
  refine ⟨⟨name, m1, i1, z1⟩,
    { s with pools := ⟨name, m1, i1, z1⟩ :: s.pools,
             log := s.log ++ [RemoteOp.rCreatePool name] }, ?_, ?_⟩
  · simp [createPool, h1, hfree]
  · simp [createPool, h2, List.find?]

/-- Witness for createPool_fresh_then_conflict on the empty registry. -/
theorem createPool_fresh_then_conflict_witness :
    (s0.pools.find? (fun p => p.name == "p") = none ∧
     validSizing (SizingPolicy.fixed 1) = true ∧
     validSizing (SizingPolicy.autoscale 0 2) = true) ∧
    ∃ p s2, createPool "p" [] "img" (SizingPolicy.fixed 1) false s0 = (Except.ok p, s2) ∧
      createPool "p" ["m"] "img2" (SizingPolicy.autoscale 0 2) false s2 =
        (Except.error OrchError.ResourceConflict, s2) :=
  ⟨⟨rfl, by decide, by decide⟩,
   createPool_fresh_then_conflict "p" [] ["m"] "img" "img2" (SizingPolicy.fixed 1)
     (SizingPolicy.autoscale 0 2) false s0 rfl (by decide) (by decide)⟩

/-- C3: createJob with existOk set against an already-existing job name returns
the existing job without creating a duplicate and without failing, and
createJob against an absent pool fails with PoolNotFound. -/
theorem createJob_existOk_or_poolNotFound (name poolName : String) (existOk : Bool)
    (j : Job) (s : OrchState) :
    (s.pools.find? (fun p => p.name == poolName) = none →
      createJob name poolName existOk s = (Except.error OrchError.PoolNotFound, s)) ∧
    ((s.pools.find? (fun p => p.name == poolName)).isSome = true →
      s.jobs.find? (fun q => q.name == name) = some j →
      createJob name poolName true s = (Except.ok j, s)) := by
  constructor
  · intro h
    simp [createJob, h]
  · intro h1 h2
    obtain ⟨p, hp⟩ := Option.isSome_iff_exists.mp h1
    simp [createJob, hp, h2]

/-- Witness for createJob_existOk_or_poolNotFound on a registry holding the
pool ixa-pool1 and the job ixa-job1. -/
theorem createJob_existOk_witness :
    (s1.jobs.find? (fun q => q.name == "ixa-job1") = some ⟨"ixa-job1", "ixa-pool1"⟩) ∧
    createJob "ixa-job1" "ixa-pool1" true s1 =
      (Except.ok ⟨"ixa-job1", "ixa-pool1"⟩, s1) ∧
    createJob "j2" "absent-pool" true s1 = (Except.error OrchError.PoolNotFound, s1) :=
  ⟨by decide,
   (createJob_existOk_or_poolNotFound "ixa-job1" "ixa-pool1" true
      ⟨"ixa-job1", "ixa-pool1"⟩ s1).2 (by decide) (by decide),
   (createJob_existOk_or_poolNotFound "j2" "absent-pool" true
      ⟨"ixa-job1", "ixa-pool1"⟩ s1).1 (by decide)⟩

/-- C4: addTask with an empty command line fails with InvalidCommand and leaves
the state, including the remote-call log, untouched, so it never reaches the
remote system; addTask for an unregistered job name fails with JobNotFound. -/
theorem addTask_invalidCommand_or_jobNotFound (jobName commandLine : String)
    (s : OrchState) :
    (addTask jobName "" s = (Except.error OrchError.InvalidCommand, s)) ∧
    (commandLine ≠ "" → s.jobs.find? (fun j => j.name == jobName) = none →
      addTask jobName commandLine s = (Except.error OrchError.JobNotFound, s)) := by
  constructor
  · simp [addTask]
  · intro h1 h2
    simp [addTask, h1, h2]

/-- Witness for addTask_invalidCommand_or_jobNotFound on the empty registry. -/
theorem addTask_validation_witness :
    addTask "ixa-job1" "" s0 = (Except.error OrchError.InvalidCommand, s0) ∧
    addTask "ixa-job1" "run" s0 = (Except.error OrchError.JobNotFound, s0) :=
  ⟨(addTask_invalidCommand_or_jobNotFound "ixa-job1" "run" s0).1,
   (addTask_invalidCommand_or_jobNotFound "ixa-job1" "run" s0).2 (by decide) rfl⟩

/-- C2: deleteJob and deletePool always return without error; when the resource
is absent they leave the resource registries unchanged, and a second delete
immediately after a successful one is likewise error-free and a no-op on the
registries. -/
theorem delete_idempotent (name : String) (s : OrchState) :
    ((deleteJob name s).1 = Except.ok () ∧ (deletePool name s).1 = Except.ok ()) ∧
    (s.jobs.find? (fun j => j.name == name) = none →
      resourcesOf (deleteJob name s).2 = resourcesOf s) ∧
    (s.pools.find? (fun p => p.name == name) = none →
      resourcesOf (deletePool name s).2 = resourcesOf s) ∧
    ((deleteJob name (deleteJob name s).2).1 = Except.ok () ∧
      resourcesOf (deleteJob name (deleteJob name s).2).2 =
        resourcesOf (deleteJob name s).2) ∧
    ((deletePool name (deletePool name s).2).1 = Except.ok () ∧
      resourcesOf (deletePool name (deletePool name s).2).2 =
        resourcesOf (deletePool name s).2) := by
  refine ⟨⟨rfl, rfl⟩, ?_, ?_, ⟨rfl, ?_⟩, ⟨rfl, ?_⟩⟩
  · intro h
    simp [deleteJob, resourcesOf, filter_of_find?_none _ _ h]
  · intro h
    simp [deletePool, resourcesOf, filter_of_find?_none _ _ h]
  · simp [deleteJob, resourcesOf, filter_idem]
  · simp [deletePool, resourcesOf, filter_idem]

/-- Witness for delete_idempotent on a registry where job and pool are absent. -/
theorem delete_idempotent_witness :
    (s0.jobs.find? (fun j => j.name == "g") = none) ∧
    resourcesOf (deleteJob "g" s0).2 = resourcesOf s0 ∧
    resourcesOf (deletePool "g" s0).2 = resourcesOf s0 ∧
    (deleteJob "g" (deleteJob "g" s0).2).1 = Except.ok () :=
  ⟨rfl, (delete_idempotent "g" s0).2.1 rfl, (delete_idempotent "g" s0).2.2.1 rfl,
   ((delete_idempotent "g" s0).2.2.2.1).1⟩

/-- C7: the task lifecycle moves only along queued to running to succeeded or
failed, no step leaves a terminal state, addTask only appends fresh tasks, and
no other orchestrator operation touches the task registry. -/
theorem task_lifecycle (a b : TaskState) :
    (TaskStep a b → isTerminal a = false) ∧
    (TaskStep a b ↔
      (a = TaskState.queued ∧ b = TaskState.running) ∨
      (a = TaskState.running ∧ (b = TaskState.succeeded ∨ b = TaskState.failed))) ∧
    (∀ jobName commandLine s, ∃ ts,
      ((addTask jobName commandLine s).2).tasks = s.tasks ++ ts) ∧
    (∀ name poolName existOk s, ((createJob name poolName existOk s).2).tasks = s.tasks) ∧
    (∀ name m i z r s, ((createPool name m i z r s).2).tasks = s.tasks) ∧
    (∀ name s, ((deleteJob name s).2).tasks = s.tasks) ∧
    (∀ name s, ((deletePool name s).2).tasks = s.tasks) := by
  refine ⟨?_, ?_, ?_, ?_, ?_, ?_, ?_⟩
  · intro h; cases h <;> rfl
  · constructor
    · intro h; cases h <;> simp
    · rintro (⟨rfl, rfl⟩ | ⟨rfl, rfl | rfl⟩)
      · exact TaskStep.queued_running
      · exact TaskStep.running_succeeded
      · exact TaskStep.running_failed
  · intro jobName commandLine s
    by_cases h1 : commandLine = ""
    · exact ⟨[], by simp [addTask, h1]⟩
    · by_cases h2 : (s.jobs.find? (fun j => j.name == jobName)).isNone = true
      · exact ⟨[], by simp [addTask, h1, h2]⟩
      · exact ⟨[⟨s.nextTaskId, jobName, commandLine, TaskState.queued⟩],
          by simp [addTask, h1, h2]⟩
  · intro n pn e s
    unfold createJob
    cases hp : s.pools.find? (fun p => p.name == pn) with
    | none => rfl
    | some p =>
      cases hj : s.jobs.find? (fun j => j.name == n) with
      | none => rfl
      | some j => by_cases he : e = true <;> simp [he]
  · intro n m i z r s
    unfold createPool
    by_cases hv : validSizing z = false
    · simp [hv]
    · simp only [hv, if_false]
      cases hp : s.pools.find? (fun p => p.name == n) with
      | none => rfl
      | some p => by_cases hr : r = true <;> simp [hr]
  · intro n s; rfl
  · intro n s; rfl

/-- Witness for task_lifecycle at the single transition out of queued. -/
theorem task_lifecycle_witness :
    isTerminal TaskState.queued = false ∧
    TaskStep TaskState.queued TaskState.running ∧
    ((createJob "j" "p" true s0).2).tasks = s0.tasks :=
  ⟨(task_lifecycle TaskState.queued TaskState.running).1 TaskStep.queued_running,
   (task_lifecycle TaskState.queued TaskState.running).2.1.mpr (Or.inl ⟨rfl, rfl⟩),
   (task_lifecycle TaskState.queued TaskState.running).2.2.2.1 "j" "p" true s0⟩

/-- C10: main of ixa-cfa-cloudops/main.py issues only the read-only call
listing the blobs of the input-test container, so the remote state is left
unchanged by the whole run. -/
theorem ixaMain_readonly (r : RemoteState) :
    runRemote ixaMainTrace r = r ∧
    (ixaMainTrace.all (fun c => !isMutating c)) = true ∧
    ixaMainTrace = [CloudCall.listBlobFiles "input-test"] :=
  ⟨rfl, rfl, rfl⟩

theorem invoked_prefix (fails : Nat → Bool) (i j : Nat) (hij : j < i)
    (h : invoked fails i = true) : fails j = false := by
  simp only [invoked, Bool.and_eq_true, List.all_eq_true, List.mem_range] at h
  have := h.2 j hij
  simp_all

/-- C8: in every run of main of scripts/cfa-cloudops/main.py, whenever the
monitoring call is invoked the task-submission call has already completed with
remote acknowledgment, and whenever the pool deletion is invoked the monitoring
of the job referencing that pool has already completed. -/
theorem main_submit_monitor_delete_order (fails : Nat → Bool) :
    (invoked fails 4 = true →
      completes fails 3 = true ∧
      mainTrace[3]? = some (CloudCall.addTaskCall JOB_NAME "/input-test/ixa-bench/ixa_setup.sh") ∧
      mainTrace[4]? = some (CloudCall.monitorJobCall JOB_NAME)) ∧
    (invoked fails 6 = true →
      completes fails 4 = true ∧
      mainTrace[4]? = some (CloudCall.monitorJobCall JOB_NAME) ∧
      mainTrace[6]? = some (CloudCall.deletePoolCall POOL_NAME)) := by
  constructor
  · intro h
    refine ⟨?_, by decide, by decide⟩
    simp only [completes, invoked, Bool.and_eq_true, List.all_eq_true, List.mem_range]
    refine ⟨⟨by decide, ?_⟩, ?_⟩
    · intro j hj
      have := invoked_prefix fails 4 j (by omega) h
      simp_all
    · have := invoked_prefix fails 4 3 (by omega) h
      simp_all
  · intro h
    refine ⟨?_, by decide, by decide⟩
    simp only [completes, invoked, Bool.and_eq_true, List.all_eq_true, List.mem_range]
    refine ⟨⟨by decide, ?_⟩, ?_⟩
    · intro j hj
      have := invoked_prefix fails 6 j (by omega) h
      simp_all
    · have := invoked_prefix fails 6 4 (by omega) h
      simp_all

/-- Witness for main_submit_monitor_delete_order on the run where no call
raises. -/
theorem main_submit_monitor_delete_order_witness :
    invoked (fun _ => false) 4 = true ∧
    completes (fun _ => false) 3 = true ∧
    invoked (fun _ => false) 6 = true ∧
    completes (fun _ => false) 4 = true :=
  ⟨by decide,
   ((main_submit_monitor_delete_order (fun _ => false)).1 (by decide)).1,
   by decide,
   ((main_submit_monitor_delete_order (fun _ => false)).2 (by decide)).1⟩

/-- C9: in main of scripts/cfa-cloudops/main.py the job deletion sits strictly
before the pool deletion; the job deletion is invoked exactly when the five
preceding calls all return without raising, the pool deletion exactly when the
job deletion also returns, and any raise among the earlier calls means neither
deletion executes, there being no cleanup handler around the run. -/
theorem main_cleanup_guard (fails : Nat → Bool) :
    (invoked fails 5 = true ↔ ∀ j, j < 5 → fails j = false) ∧
    (invoked fails 6 = true ↔ ∀ j, j < 6 → fails j = false) ∧
    (invoked fails 6 = true → completes fails 5 = true) ∧
    mainTrace[5]? = some (CloudCall.deleteJobCall JOB_NAME) ∧
    mainTrace[6]? = some (CloudCall.deletePoolCall POOL_NAME) := by
  refine ⟨?_, ?_, ?_, by decide, by decide⟩
  · constructor
    · intro h j hj
      exact invoked_prefix fails 5 j hj h
    · intro h
      simp only [invoked, Bool.and_eq_true, List.all_eq_true, List.mem_range]
      exact ⟨by decide, fun j hj => by simp [h j hj]⟩
  · constructor
    · intro h j hj
      exact invoked_prefix fails 6 j hj h
    · intro h
      simp only [invoked, Bool.and_eq_true, List.all_eq_true, List.mem_range]
      exact ⟨by decide, fun j hj => by simp [h j hj]⟩
  · intro h
    simp only [completes, invoked, Bool.and_eq_true, List.all_eq_true, List.mem_range]
    refine ⟨⟨by decide, fun j hj => ?_⟩, ?_⟩
    · have := invoked_prefix fails 6 j (by omega) h
      simp_all
    · have := invoked_prefix fails 6 5 (by omega) h
      simp_all

/-- Witness for main_cleanup_guard on the run where no call raises. -/
theorem main_cleanup_guard_witness :
    (∀ j, j < 5 → (fun _ => false) j = false) ∧
    invoked (fun _ => false) 5 = true ∧
    completes (fun _ => false) 5 = true :=
  ⟨fun j _ => rfl,
   (main_cleanup_guard (fun _ => false)).1.mpr (fun j _ => rfl),
   (main_cleanup_guard (fun _ => false)).2.2.1 (by decide)⟩

theorem monitorAux_ok_allTerminal (sched : Nat → List TaskState)
    (pollInterval timeout : Nat) :
    ∀ fuel k r, monitorAux sched pollInterval timeout k fuel = Except.ok r →
      allTerminal r = true := by
  intro fuel
  induction fuel with
  | zero =>
    intro k r h
    simp [monitorAux] at h
  | succ n ih =>
    intro k r h
    simp only [monitorAux] at h
    split at h
    · next hc =>
        injection h with h2
        rw [← h2]
        exact hc
    · next =>
        split at h
        · exact absurd h (by simp)
        · exact ih _ _ h

theorem monitorAux_timeout_iff (sched : Nat → List TaskState)
    (pollInterval timeout : Nat) (hpI : 1 ≤ pollInterval) :
    ∀ fuel k, k * pollInterval < timeout → timeout ≤ k * pollInterval + fuel →
      (monitorAux sched pollInterval timeout k fuel =
          Except.error OrchError.MonitorTimeout ↔
        ∀ j, k ≤ j → j * pollInterval < timeout → allTerminal (sched j) = false) := by
  intro fuel
  induction fuel with
  | zero =>
    intro k h1 h2
    omega
  | succ n ih =>
    intro k h1 h2
    simp only [monitorAux]
    by_cases hT : allTerminal (sched k) = true
    · rw [if_pos hT]
      constructor
      · intro h
        exact Except.noConfusion h
      · intro hall
        have := hall k le_rfl h1
        rw [hT] at this
        exact Bool.noConfusion this
    · have hT2 : allTerminal (sched k) = false := by
        revert hT
        cases allTerminal (sched k) <;> simp
      rw [if_neg (by simp [hT2])]
      by_cases hto : timeout ≤ (k + 1) * pollInterval
      · rw [if_pos hto]
        constructor
        · intro _ j hkj hj
          have hlt : j < k + 1 :=
            Nat.lt_of_mul_lt_mul_right (Nat.lt_of_lt_of_le hj hto)
          have : j = k := by omega
          rw [this]
          exact hT2
        · intro _
          rfl
      · rw [if_neg hto]
        have hto2 : (k + 1) * pollInterval < timeout := by omega
        have hfuel : timeout ≤ (k + 1) * pollInterval + n := by
          have : (k + 1) * pollInterval = k * pollInterval + pollInterval :=
            Nat.succ_mul k pollInterval
          omega
        rw [ih (k + 1) hto2 hfuel]
        constructor
        · intro hall j hkj hj
          rcases Nat.lt_or_ge k j with hlt | hge
          · exact hall j hlt hj
          · have : j = k := by omega
            rw [this]
            exact hT2
        · intro hall j hk1j hj
          exact hall j (by omega) hj

/-- C1: monitorJob, polling a status snapshot every pollInterval, returns a
MonitorResult only when every task of the monitored job is terminal, and it
raises MonitorTimeout exactly when every snapshot taken strictly before the
configured timeout elapses still holds a non-terminal task. -/
theorem monitorJob_spec (sched : Nat → List TaskState) (pollInterval timeout : Nat)
    (hpI : 1 ≤ pollInterval) (hto : 1 ≤ timeout) :
    (∀ r, monitorJob sched pollInterval timeout = Except.ok r →
      allTerminal r = true) ∧
    (monitorJob sched pollInterval timeout = Except.error OrchError.MonitorTimeout ↔
      ∀ j, j * pollInterval < timeout → allTerminal (sched j) = false) := by
  constructor
  · intro r h
    exact monitorAux_ok_allTerminal sched pollInterval timeout (timeout + 1) 0 r h
  · have h := monitorAux_timeout_iff sched pollInterval timeout hpI (timeout + 1) 0
      (by simpa using hto) (by omega)
    simpa [monitorJob] using h

/-- Witness for monitorJob_spec with a one-task job that is already terminal,
polled every tick against a three-tick timeout. -/
theorem monitorJob_spec_witness :
    ((1 : Nat) ≤ 1 ∧ (1 : Nat) ≤ 3) ∧
    ((∀ r, monitorJob (fun _ => [TaskState.succeeded]) 1 3 = Except.ok r →
        allTerminal r = true) ∧
     (monitorJob (fun _ => [TaskState.succeeded]) 1 3 =
          Except.error OrchError.MonitorTimeout ↔
        ∀ j, j * 1 < 3 → allTerminal ((fun _ => [TaskState.succeeded]) j) = false)) :=
  ⟨⟨le_rfl, by omega⟩,
   monitorJob_spec (fun _ => [TaskState.succeeded]) 1 3 le_rfl (by omega)⟩

end Cloudops
